import Mathlib

/-!
Verification of the figma-console-mcp-cli reconciliation engine and
connection verifier, as a shallow embedding of the TypeScript sources
(src/utils/config.ts, src/steps/doctor.ts, src/steps/healthCheck.ts).

JavaScript runtime values flowing through the config code are modelled by
the inductive type Json below.  Objects are association lists in insertion
order, matching the enumeration order of JavaScript object keys; object
spread and property assignment replace an existing key in place and append
a fresh key at the end, exactly as in the runtime.
-/

namespace FigmaCli

/-- A JSON value as produced by JSON.parse.  Numbers are modelled as
integers; no claim depends on non-integer numerics. -/
inductive Json where
  | null : Json
  | bool (b : Bool) : Json
  | num (n : Int) : Json
  | str (s : String) : Json
  | arr (xs : List Json) : Json
  | obj (fields : List (String × Json)) : Json

/-- First-match lookup of a key in an object field list (JavaScript objects
have unique keys, so first-match agrees with the runtime). -/
def objGet : List (String × Json) → String → Option Json
  | [], _ => none
  | (k, v) :: rest, key => if k = key then some v else objGet rest key

/-- Semantics of writing key `key` in an object literal spread
`[...fields, key: v]` or of the assignment `o[key] = v`: replace the key in
place when present, append it at the end otherwise. -/
def setKey : List (String × Json) → String → Json → List (String × Json)
  | [], key, v => [(key, v)]
  | (k, w) :: rest, key, v =>
      if k = key then (k, v) :: rest else (k, w) :: setKey rest key v

/-- Semantics of the JavaScript delete operator on an object property:
remove the binding when present, leave the object unchanged otherwise. -/
def eraseKey : List (String × Json) → String → List (String × Json)
  | [], _ => []
  | (k, w) :: rest, key =>
      if k = key then rest else (k, w) :: eraseKey rest key

/-- Property access `v[key]` on a non-null value for a non-numeric key:
only objects expose named properties.  (String values expose numeric index
properties only; every key read by this program — mcpServers,
figma-console, command, args, env, FIGMA_ACCESS_TOKEN — is non-numeric.
Access on null throws and is modelled separately by jsGetE.) -/
def jsGet : Json → String → Option Json
  | Json.obj fs, k => objGet fs k
  | _, _ => none

/-- Plain (non-optional) property access `v[key]`: throws a TypeError when
the value is null — the one nullish value JSON.parse can produce — and
behaves as jsGet otherwise. -/
def jsGetE (v : Json) (k : String) : Except String (Option Json) :=
  match v with
  | Json.null => Except.error "TypeError: Cannot read properties of null"
  | _ => Except.ok (jsGet v k)

/-- JavaScript truthiness of a value. -/
def truthy : Json → Bool
  | Json.null => false
  | Json.bool b => b
  | Json.num n => n != 0
  | Json.str s => !s.isEmpty
  | Json.arr _ => true
  | Json.obj _ => true

/-- Own enumerable properties contributed by `...v` in an object literal:
objects spread their fields, strings and arrays spread their indexed
elements, primitives contribute nothing. -/
def spreadFields : Json → List (String × Json)
  | Json.obj fs => fs
  | Json.str s => s.toList.enum.map fun p => (toString p.1, Json.str (String.mk [p.2]))
  | Json.arr xs => xs.enum.map fun p => (toString p.1, p.2)
  | _ => []

/-- Whether a JSON value is a string. -/
def Json.isString : Json → Bool
  | Json.str _ => true
  | _ => false

/-- Strict equality `o === s` between an optionally absent JavaScript value
and a string literal: true exactly when the value is that string. -/
def isStrEq (o : Option Json) (s : String) : Bool :=
  match o with
  | some (Json.str t) => t == s
  | _ => false

/-- Index access `v[0]` as used by `args?.[0]`: first element of an array,
first character of a string, property "0" of an object, undefined
otherwise. -/
def jsIndex0 : Json → Option Json
  | Json.arr xs => xs.head?
  | Json.str s => s.toList.head?.map fun c => Json.str (String.mk [c])
  | Json.obj fs => objGet fs "0"
  | _ => none

/-- Observable state of a config file on disk, as seen by readJsonConfig:
the file may be missing (readFileSync throws), hold malformed JSON
(JSON.parse throws), or parse to a Json value. -/
inductive FileRead where
  | missing : FileRead
  | malformed : FileRead
  | content (j : Json) : FileRead

/-- From src/utils/config.ts readJsonConfig: both failure modes are caught
and yield the empty object; the function never throws. -/
def readJsonConfig : FileRead → Json
  | FileRead.missing => Json.obj []
  | FileRead.malformed => Json.obj []
  | FileRead.content j => j

/-- From src/steps/installMethod.ts.  The TypeScript declaration types the
local path as a string, but the type is erased at runtime and
detectInstallMethodFromConfig can place an arbitrary parsed value in the
path field, so the payload is modelled as Json. -/
inductive InstallMethod where
  | npx : InstallMethod
  | localPath (path : Json) : InstallMethod

/-- From src/utils/config.ts getServerCommand. -/
def getServerCommand : InstallMethod → String × List Json
  | InstallMethod.localPath p => ("node", [p])
  | InstallMethod.npx => ("npx", [Json.str "-y", Json.str "figma-console-mcp@latest"])

/-- The fresh server entry built by mergeServerConfig for the reserved
figma-console key. -/
def serverEntry (token : String) (method : InstallMethod) : Json :=
  Json.obj
    [("command", Json.str (getServerCommand method).1),
     ("args", Json.arr (getServerCommand method).2),
     ("env", Json.obj
        [("FIGMA_ACCESS_TOKEN", Json.str token),
         ("ENABLE_MCP_APPS", Json.str "true")])]

/-- From src/utils/config.ts mergeServerConfig:
the parent collection is `(existing.mcpServers as Record) || \x7b\x7d`
(any truthy value is spread, a falsy or absent one is replaced by the
empty object), and the result is the spread of `existing` with the
mcpServers key replaced by the spread of the parent collection with the
figma-console key replaced by the fresh entry.  The plain
existing.mcpServers access in the source throws a TypeError when existing
is JSON null; this definition embeds the source on every non-null value —
in particular exactly on the config mappings the stated properties
quantify over. -/
def parentFields (existing : Json) : List (String × Json) :=
  match jsGet existing "mcpServers" with
  | some v => if truthy v then spreadFields v else []
  | none => []

/-- The merged config (continuation of the mergeServerConfig doc above). -/
def mergeServerConfig (existing : Json) (token : String) (method : InstallMethod) : Json :=
  Json.obj (setKey (spreadFields existing) "mcpServers"
    (Json.obj (setKey (parentFields existing) "figma-console" (serverEntry token method))))

/-- The detection logic of detectInstallMethodFromConfig once the plain
config.mcpServers access has succeeded, i.e. on any non-null parsed config
(all remaining accesses are optional-chained or guarded): local when the
reserved entry has command equal to the string node and a truthy args[0]
(whose value becomes the path), npx otherwise.  The faithful embedding
including the TypeError on a null config is detectInstallMethodFromJsonE
below; the two agree away from null (detectInstallMethodFromJsonE_ok). -/
def detectInstallMethodFromJson (config : Json) : InstallMethod :=
  let fc := (jsGet config "mcpServers").bind fun v => jsGet v "figma-console"
  if isStrEq (fc.bind fun v => jsGet v "command") "node" then
    match (fc.bind fun v => jsGet v "args").bind jsIndex0 with
    | some v => if truthy v then InstallMethod.localPath v else InstallMethod.npx
    | none => InstallMethod.npx
  else InstallMethod.npx

/-- From src/utils/config.ts detectInstallMethodFromConfig, the pure part
operating on the parsed config value.  The first line accesses
config.mcpServers without optional chaining, so a null config — a file
holding the JSON text null — throws a TypeError, which this function
catches nowhere; every later access is optional-chained or runs under the
guard that figma-console.command is the string node, so no other value
throws. -/
def detectInstallMethodFromJsonE (config : Json) : Except String InstallMethod :=
  match jsGetE config "mcpServers" with
  | Except.error e => Except.error e
  | Except.ok ms =>
      let fc := ms.bind fun v => jsGet v "figma-console"
      Except.ok
        (if isStrEq (fc.bind fun v => jsGet v "command") "node" then
          match (fc.bind fun v => jsGet v "args").bind jsIndex0 with
          | some v => if truthy v then InstallMethod.localPath v else InstallMethod.npx
          | none => InstallMethod.npx
        else InstallMethod.npx)

/-- detectInstallMethodFromConfig composed with the file read; an error
value is a thrown TypeError. -/
def detectInstallMethodFromConfig (content : FileRead) : Except String InstallMethod :=
  detectInstallMethodFromJsonE (readJsonConfig content)

/-- Scan outcome for one file-backed target (src/steps/doctor.ts
scanClients).  The token is None when absent or null. -/
structure ScanResult where
  configured : Bool
  token : Option Json

/-- From src/steps/doctor.ts scanClients, the file-backed branch: read the
config, follow mcpServers then figma-console; a missing or falsy entry
means not configured; otherwise the token is env.FIGMA_ACCESS_TOKEN with
null collapsed to None by the nullish coalescing.  The plain
config.mcpServers access in the source throws a TypeError when the parsed
config is JSON null; this definition embeds the source on every non-null
parsed config, which covers the missing-file and malformed-file inputs the
stated properties are about. -/
def scanFileClient (content : FileRead) : ScanResult :=
  let config := readJsonConfig content
  let figmaConsole := (jsGet config "mcpServers").bind fun v => jsGet v "figma-console"
  match figmaConsole with
  | none => { configured := false, token := none }
  | some fc =>
      if truthy fc then
        { configured := true,
          token :=
            match (jsGet fc "env").bind fun e => jsGet e "FIGMA_ACCESS_TOKEN" with
            | some Json.null => none
            | some v => some v
            | none => none }
      else { configured := false, token := none }

/-- From src/steps/doctor.ts removeIntegrations, the file-backed branch:
`const ms = (config.mcpServers as Record) ?? \x7b\x7d; delete
ms[figma-console]; config.mcpServers = ms`.  A nullish parent collection
becomes the empty object; an object parent loses the reserved key; any
other value is left as found (delete on a primitive wrapper is a no-op);
the final assignment writes the mcpServers key back in every case. -/
def removeEntry (config : List (String × Json)) : List (String × Json) :=
  let newVal : Json :=
    match objGet config "mcpServers" with
    | none => Json.obj []
    | some Json.null => Json.obj []
    | some (Json.obj gs) => Json.obj (eraseKey gs "figma-console")
    | some v => v
  setKey config "mcpServers" newVal

/-- removeEntry lifted to a parsed config value.  (Non-object parse results
cannot reach the remove flow: only configured clients are offered for
removal, and a configured file-backed client has an object config.) -/
def removeEntryJ : Json → Json
  | Json.obj fs => Json.obj (removeEntry fs)
  | j => j

/-- A file-backed install target: the current file state plus whether the
filesystem allows writing its config (permission model for
writeJsonConfig). -/
structure FileTarget where
  content : FileRead
  writable : Bool

/-- From src/utils/config.ts writeJsonConfig: serializes the mapping to the
file; a filesystem failure (permissions, disk) throws, which the embedding
returns as an error value. -/
def writeJsonConfig (t : FileTarget) (data : Json) : Except String FileTarget :=
  if t.writable then
    Except.ok { content := FileRead.content data, writable := t.writable }
  else
    Except.error "permission denied"

/-- From src/steps/configure.ts configureJsonClient: read, merge, write. -/
def configureJsonClient (t : FileTarget) (token : String) (method : InstallMethod) :
    Except String FileTarget :=
  writeJsonConfig t (mergeServerConfig (readJsonConfig t.content) token method)

/-- Per-target outcome reported by a batch loop in src/steps/doctor.ts
(the green check or red cross line). -/
inductive TargetStatus where
  | success : TargetStatus
  | failed (msg : String) : TargetStatus

/-- The shared shape of the three batch loops in src/steps/doctor.ts
(addIntegrations, updateToken, removeIntegrations): each target is
processed in order inside its own try/catch, a thrown error is reported
for that target alone, and the loop continues with the next target. -/
def processBatch (op : FileTarget → Except String FileTarget)
    (targets : List FileTarget) : List (FileTarget × TargetStatus) :=
  targets.map fun t =>
    match op t with
    | Except.ok t2 => (t2, TargetStatus.success)
    | Except.error m => (t, TargetStatus.failed m)

/-- From src/steps/doctor.ts addIntegrations, the mutation loop over the
selected file-backed targets (token and install method are fixed once per
batch before the loop). -/
def addIntegrations (targets : List FileTarget) (token : String)
    (method : InstallMethod) : List (FileTarget × TargetStatus) :=
  processBatch (fun t => configureJsonClient t token method) targets

/-- From src/steps/doctor.ts updateToken: each configured target re-derives
its install method from its own config before the write; both the
detection (which can throw on a null config) and the write run inside the
per-target try/catch. -/
def updateToken (targets : List FileTarget) (token : String) :
    List (FileTarget × TargetStatus) :=
  processBatch
    (fun t =>
      match detectInstallMethodFromConfig t.content with
      | Except.error m => Except.error m
      | Except.ok method => configureJsonClient t token method)
    targets

/-- From src/steps/doctor.ts removeIntegrations, the file-backed branch:
read, delete the reserved key, write back. -/
def removeIntegrations (targets : List FileTarget) :
    List (FileTarget × TargetStatus) :=
  processBatch (fun t => writeJsonConfig t (removeEntryJ (readJsonConfig t.content)))
    targets

/-!
Connection verifier (src/steps/healthCheck.ts).

waitForBridgeWithCancel races three concurrent event sources — the
wall-clock timer, the Escape keystroke on stdin, and an inbound WebSocket
upgrade — under the single-threaded JavaScript event loop.  The wait is
embedded as a state machine: the state records the promise resolution flag,
which event sources are still installed, and the settled outcome; one
event-loop dispatch is one step, and an execution is the list of events in
dispatch order.
-/

/-- The three terminal outcomes of the bridge wait. -/
inductive BridgeResult where
  | connected : BridgeResult
  | timeout : BridgeResult
  | cancelled : BridgeResult
deriving DecidableEq

/-- State of one bridge wait: the resolved guard inside cleanup, whether
the timer, the stdin data listener and the listening server are still
active, and the value the promise settled to (none while pending). -/
structure WaitState where
  resolved : Bool
  timerOn : Bool
  dataListenerOn : Bool
  serverOpen : Bool
  outcome : Option BridgeResult
deriving DecidableEq

/-- State after binding a port, before any event fires. -/
def initWait : WaitState :=
  { resolved := false, timerOn := true, dataListenerOn := true,
    serverOpen := true, outcome := none }

/-- The cleanup closure: a no-op once resolved, otherwise it sets the
guard, clears the timer, closes the server (whose close event removes the
stdin data listener) and restores stdin. -/
def cleanup (s : WaitState) : WaitState :=
  if s.resolved then s
  else
    { resolved := true, timerOn := false, dataListenerOn := false,
      serverOpen := false, outcome := s.outcome }

/-- Settling the promise: a promise resolves at most once, so a second
resolve call is a no-op. -/
def resolveOnce (s : WaitState) (r : BridgeResult) : WaitState :=
  match s.outcome with
  | some _ => s
  | none => { s with outcome := some r }

/-- An event-loop dispatch relevant to the wait: the timeout callback, an
Escape keystroke delivered to the data listener, or an upgrade request
delivered to the server.  (Non-Escape keystrokes are ignored by the data
listener and change nothing, so they are not represented.) -/
inductive BridgeEvent where
  | timerFires : BridgeEvent
  | escapePressed : BridgeEvent
  | upgradeRequest : BridgeEvent

/-- One dispatch.  An event is delivered only while its source is
installed: clearTimeout stops the timer callback, removeListener stops the
data callback, and a closed server emits no upgrade events.  The Escape
handler removes itself before running cleanup, as in the source. -/
def stepWait (s : WaitState) : BridgeEvent → WaitState
  | BridgeEvent.timerFires =>
      if s.timerOn then resolveOnce (cleanup s) BridgeResult.timeout else s
  | BridgeEvent.escapePressed =>
      if s.dataListenerOn then
        resolveOnce (cleanup { s with dataListenerOn := false }) BridgeResult.cancelled
      else s
  | BridgeEvent.upgradeRequest =>
      if s.serverOpen then resolveOnce (cleanup s) BridgeResult.connected else s

/-- Run the wait over a sequence of dispatches. -/
def runWait (s : WaitState) : List BridgeEvent → WaitState
  | [] => s
  | e :: es => runWait (stepWait s e) es

/-- The outcome each event resolves when it is the first to fire. -/
def eventOutcome : BridgeEvent → BridgeResult
  | BridgeEvent.timerFires => BridgeResult.timeout
  | BridgeEvent.escapePressed => BridgeResult.cancelled
  | BridgeEvent.upgradeRequest => BridgeResult.connected

/-- From src/steps/healthCheck.ts: the ten candidate bridge ports, in the
order the loop tries them. -/
def BRIDGE_PORTS : List Nat :=
  [9223, 9224, 9225, 9226, 9227, 9228, 9229, 9230, 9231, 9232]

/-- tryListen succeeds exactly when nothing else already holds the port. -/
def tryListen (occupied : Nat → Bool) (port : Nat) : Bool :=
  !occupied port

/-- The binding loop of waitForBridgeWithCancel: try each candidate port in
list order and stop at the first successful listen. -/
def bindFirstPort (occupied : Nat → Bool) : Option Nat :=
  BRIDGE_PORTS.find? fun p => tryListen occupied p

/-- Result of the binding phase: either every candidate was taken (the
function returns connected immediately, with no listener of its own) or a
listener is bound on the given port and the wait begins. -/
inductive BridgePhase where
  | assumeConnected : BridgePhase
  | listening (port : Nat) : BridgePhase
deriving DecidableEq

/-- The binding phase of waitForBridgeWithCancel. -/
def startBridgeWait (occupied : Nat → Bool) : BridgePhase :=
  match bindFirstPort occupied with
  | none => BridgePhase.assumeConnected
  | some p => BridgePhase.listening p

/-- Full outcome of waitForBridgeWithCancel: connected immediately when no
port could be bound, otherwise the settled outcome of the event race. -/
def waitForBridgeOutcome (occupied : Nat → Bool) (events : List BridgeEvent) :
    Option BridgeResult :=
  match startBridgeWait occupied with
  | BridgePhase.assumeConnected => some BridgeResult.connected
  | BridgePhase.listening _ => (runWait initWait events).outcome

/-!
The upgrade handler computes the Sec-WebSocket-Accept token as
base64(sha1(nonce ++ magic)).  SHA-1 and base64 are implemented below over
byte lists, with 32-bit words as naturals reduced modulo 2 to the 32.
-/

/-- Left rotation of a 32-bit word held as a natural below 2^32. -/
def rotl (n x : Nat) : Nat :=
  ((x <<< n) % 4294967296) ||| (x >>> (32 - n))

/-- Big-endian packing of bytes into 32-bit words. -/
def bytesToWords : List Nat → List Nat
  | b0 :: b1 :: b2 :: b3 :: rest =>
      (((b0 * 256 + b1) * 256 + b2) * 256 + b3) :: bytesToWords rest
  | _ => []

/-- Big-endian bytes of a 32-bit word. -/
def wordToBytes (w : Nat) : List Nat :=
  [w / 16777216 % 256, w / 65536 % 256, w / 256 % 256, w % 256]

/-- SHA-1 padding: a 0x80 byte, zeros to 56 mod 64, then the bit length as
eight big-endian bytes. -/
def padBytes (msg : List Nat) : List Nat :=
  let len := msg.length
  let zeros := (119 - len % 64) % 64
  let bitLen := len * 8
  msg ++ [128] ++ List.replicate zeros 0 ++
    [bitLen / 72057594037927936 % 256, bitLen / 281474976710656 % 256,
     bitLen / 1099511627776 % 256, bitLen / 4294967296 % 256,
     bitLen / 16777216 % 256, bitLen / 65536 % 256,
     bitLen / 256 % 256, bitLen % 256]

/-- Split a byte list into 64-byte chunks (fuelled by the list length). -/
def chunksGo : Nat → List Nat → List (List Nat)
  | 0, _ => []
  | _, [] => []
  | fuel + 1, l => l.take 64 :: chunksGo fuel (l.drop 64)

/-- All 64-byte chunks of a padded message. -/
def chunks64 (l : List Nat) : List (List Nat) :=
  chunksGo l.length l

/-- One step of the message schedule, working on the reversed prefix of the
schedule (head is the most recent word). -/
def scheduleStep (acc : List Nat) : List Nat :=
  rotl 1 ((acc.getD 2 0 ^^^ acc.getD 7 0) ^^^ (acc.getD 13 0 ^^^ acc.getD 15 0)) :: acc

/-- Expand 16 words to the 80-word schedule. -/
def buildSchedule (w16 : List Nat) : List Nat :=
  ((List.range 64).foldl (fun acc _ => scheduleStep acc) w16.reverse).reverse

/-- The five SHA-1 working registers. -/
structure Sha1State where
  a : Nat
  b : Nat
  c : Nat
  d : Nat
  e : Nat

/-- Round function and constant for round i. -/
def fkRound (i b c d : Nat) : Nat × Nat :=
  if i < 20 then (((b &&& c) ||| ((b ^^^ 4294967295) &&& d)), 1518500249)
  else if i < 40 then ((b ^^^ c) ^^^ d, 1859775393)
  else if i < 60 then (((b &&& c) ||| (b &&& d)) ||| (c &&& d), 2400959708)
  else ((b ^^^ c) ^^^ d, 3395469782)

/-- One SHA-1 round: iw is the round index paired with the schedule
word. -/
def roundStep (st : Sha1State) (iw : Nat × Nat) : Sha1State :=
  let fk := fkRound iw.1 st.b st.c st.d
  let temp := (rotl 5 st.a + fk.1 + st.e + fk.2 + iw.2) % 4294967296
  ⟨temp, st.a, rotl 30 st.b, st.c, st.d⟩

/-- Compress one 64-byte chunk into the running state. -/
def processChunk (h : Sha1State) (chunk : List Nat) : Sha1State :=
  let fin := ((buildSchedule (bytesToWords chunk)).enum).foldl roundStep h
  ⟨(h.a + fin.a) % 4294967296, (h.b + fin.b) % 4294967296,
   (h.c + fin.c) % 4294967296, (h.d + fin.d) % 4294967296,
   (h.e + fin.e) % 4294967296⟩

/-- The SHA-1 initial state. -/
def SHA1_INIT : Sha1State :=
  ⟨1732584193, 4023233417, 2562383102, 271733878, 3285377520⟩

/-- SHA-1 of a byte list, as the 20 digest bytes. -/
def sha1 (msg : List Nat) : List Nat :=
  let fin := (chunks64 (padBytes msg)).foldl processChunk SHA1_INIT
  wordToBytes fin.a ++ wordToBytes fin.b ++ wordToBytes fin.c ++
    wordToBytes fin.d ++ wordToBytes fin.e

/-- The base64 alphabet. -/
def B64_ALPHABET : List Char :=
  "ABCDEFGHIJKLMNOPQRSTUVWXYZabcdefghijklmnopqrstuvwxyz0123456789+/".toList

/-- The base64 digit for a 6-bit value. -/
def b64char (n : Nat) : Char :=
  B64_ALPHABET.getD n 'A'

/-- Standard base64 with padding, three input bytes at a time. -/
def base64Encode : List Nat → String
  | [] => ""
  | [b0] =>
      String.mk [b64char (b0 / 4), b64char (b0 % 4 * 16), '=', '=']
  | [b0, b1] =>
      String.mk [b64char (b0 / 4), b64char (b0 % 4 * 16 + b1 / 16),
                 b64char (b1 % 16 * 4), '=']
  | b0 :: b1 :: b2 :: rest =>
      String.mk [b64char (b0 / 4), b64char (b0 % 4 * 16 + b1 / 16),
                 b64char (b1 % 16 * 4 + b2 / 64), b64char (b2 % 64)]
        ++ base64Encode rest

/-- The fixed magic constant appended to the client nonce
(src/steps/healthCheck.ts, upgrade handler). -/
def WS_MAGIC : String := "258EAFA5-E914-47DA-95CA-5AB5E34B13E5"

/-- The accept token computed by the upgrade handler:
createHash(sha1).update(key + magic).digest(base64). -/
def computeAccept (key : String) : String :=
  base64Encode (sha1 ((key ++ WS_MAGIC).toList.map Char.toNat))

/-- The 101 response written by the upgrade handler. -/
def upgradeResponse (key : String) : String :=
  "HTTP/1.1 101 Switching Protocols\r\nUpgrade: websocket\r\nConnection: Upgrade\r\nSec-WebSocket-Accept: "
    ++ computeAccept key ++ "\r\n\r\n"

/-- Modelled from the spec: the protocol-mandated accept computation of the
standard WebSocket upgrade exchange, whose published magic GUID (RFC 6455)
is 258EAFA5-E914-47DA-95CA-C5AB0DC85B11.  This definition exists to compare
the accept value the code computes against the protocol reference value;
note that WS_MAGIC in the code differs from the protocol GUID. -/
def protocolAccept (key : String) : String :=
  base64Encode (sha1 ((key ++ "258EAFA5-E914-47DA-95CA-C5AB0DC85B11").toList.map Char.toNat))

/-! Association list lemmas for the object model. -/

theorem objGet_setKey_self (l : List (String × Json)) (k : String) (v : Json) :
    objGet (setKey l k v) k = some v := by
  induction l with
  | nil => simp [setKey, objGet]
  | cons p rest ih =>
      by_cases h : p.1 = k
      · simp [setKey, h, objGet]
      · simpa [setKey, h, objGet] using ih

theorem objGet_setKey_ne (l : List (String × Json)) (k : String) (v : Json)
    (k2 : String) (h : k2 ≠ k) :
    objGet (setKey l k v) k2 = objGet l k2 := by
  have h2 : ¬(k = k2) := fun hh => h hh.symm
  induction l with
  | nil => simp [setKey, objGet, h2]
  | cons p rest ih =>
      obtain ⟨k1, w⟩ := p
      by_cases hk : k1 = k
      · subst hk
        simp [setKey, objGet, h2]
      · simp [setKey, hk, objGet, ih]

theorem setKey_setKey (l : List (String × Json)) (k : String) (v w : Json) :
    setKey (setKey l k v) k w = setKey l k w := by
  induction l with
  | nil => simp [setKey]
  | cons p rest ih =>
      by_cases h : p.1 = k
      · simp [setKey, h]
      · simp [setKey, h, ih]

theorem setKey_id (l : List (String × Json)) (k : String) (v : Json)
    (h : objGet l k = some v) :
    setKey l k v = l := by
  induction l with
  | nil => cases h
  | cons p rest ih =>
      obtain ⟨k1, w⟩ := p
      rw [objGet] at h
      by_cases hk : k1 = k
      · rw [if_pos hk] at h
        injection h with hv
        simp [setKey, hk, hv]
      · rw [if_neg hk] at h
        simp [setKey, hk, ih h]

theorem eraseKey_id (l : List (String × Json)) (k : String)
    (h : objGet l k = none) :
    eraseKey l k = l := by
  induction l with
  | nil => rfl
  | cons p rest ih =>
      obtain ⟨k1, w⟩ := p
      rw [objGet] at h
      by_cases hk : k1 = k
      · rw [if_pos hk] at h
        cases h
      · rw [if_neg hk] at h
        simp [eraseKey, hk, ih h]

theorem parentFields_setKey (A B : List (String × Json)) :
    parentFields (Json.obj (setKey A "mcpServers" (Json.obj B))) = B := by
  simp [parentFields, jsGet, objGet_setKey_self, truthy, spreadFields]

/-- Claim C2: merging the server entry into an existing config mapping
preserves every top-level key other than mcpServers with its exact value,
and inside the mcpServers collection preserves every entry other than the
reserved figma-console key, which alone is replaced by the freshly built
server entry. -/
theorem mergeServerConfig_preserves (fs : List (String × Json)) (t : String)
    (m : InstallMethod) :
    (∀ k, k ≠ "mcpServers" →
        jsGet (mergeServerConfig (Json.obj fs) t m) k = objGet fs k)
    ∧ ∃ ms2,
        jsGet (mergeServerConfig (Json.obj fs) t m) "mcpServers" = some (Json.obj ms2)
        ∧ objGet ms2 "figma-console" = some (serverEntry t m)
        ∧ ∀ gs, objGet fs "mcpServers" = some (Json.obj gs) →
            ∀ k, k ≠ "figma-console" → objGet ms2 k = objGet gs k := by
  constructor
  · intro k hk
    simp only [mergeServerConfig, jsGet, spreadFields]
    exact objGet_setKey_ne _ _ _ _ hk
  · refine ⟨setKey (parentFields (Json.obj fs)) "figma-console" (serverEntry t m),
      ?_, ?_, ?_⟩
    · simp only [mergeServerConfig, jsGet, spreadFields]
      exact objGet_setKey_self _ _ _
    · exact objGet_setKey_self _ _ _
    · intro gs hgs k hk
      have hpf : parentFields (Json.obj fs) = gs := by
        simp [parentFields, jsGet, hgs, truthy, spreadFields]
      rw [hpf]
      exact objGet_setKey_ne _ _ _ _ hk

/-- Witness for C2 at a concrete config holding a foreign top-level key and
a foreign sibling server entry. -/
theorem mergeServerConfig_preserves_witness :
    jsGet (mergeServerConfig
        (Json.obj [("theme", Json.str "dark"),
                   ("mcpServers", Json.obj [("other-server", Json.num 2)])])
        "figd_w" InstallMethod.npx) "theme"
      = some (Json.str "dark")
    ∧ ∃ ms2,
        jsGet (mergeServerConfig
            (Json.obj [("theme", Json.str "dark"),
                       ("mcpServers", Json.obj [("other-server", Json.num 2)])])
            "figd_w" InstallMethod.npx) "mcpServers" = some (Json.obj ms2)
        ∧ objGet ms2 "figma-console" = some (serverEntry "figd_w" InstallMethod.npx)
        ∧ objGet ms2 "other-server" = some (Json.num 2) := by
  have h := mergeServerConfig_preserves
    [("theme", Json.str "dark"), ("mcpServers", Json.obj [("other-server", Json.num 2)])]
    "figd_w" InstallMethod.npx
  refine ⟨h.1 "theme" (by decide), ?_⟩
  obtain ⟨ms2, e1, e2, e3⟩ := h.2
  exact ⟨ms2, e1, e2, by
    have := e3 [("other-server", Json.num 2)] rfl "other-server" (by decide)
    simpa [objGet] using this⟩

/-- Claim C4: mergeServerConfig is idempotent — merging the same token and
method into an already-merged config returns a structurally equal config.
(The embedding also witnesses purity: mergeServerConfig is a function of
its arguments alone, performing no I/O.) -/
theorem mergeServerConfig_idempotent (x : Json) (t : String) (m : InstallMethod) :
    mergeServerConfig (mergeServerConfig x t m) t m = mergeServerConfig x t m := by
  simp only [mergeServerConfig, spreadFields, parentFields_setKey, setKey_setKey]

/-- Counterexample for C7: removing the integration from a config that
lacks the mcpServers key is not the identity — the code materializes an
empty mcpServers object, so the output mapping differs from the input. -/
theorem removeEntry_materializes :
    removeEntry [] = [("mcpServers", Json.obj [])]
    ∧ ([("mcpServers", Json.obj [])] : List (String × Json)) ≠ [] :=
  ⟨rfl, by simp⟩

/-- Claim C7 as amended: when the config already holds an object at the
mcpServers key and that object has no figma-console entry, the remove
operation is a successful no-op — the output mapping is structurally equal
to the input.  (When the mcpServers key is absent or null the operation
still succeeds but adds an empty mcpServers object, as the counterexample
shows.) -/
theorem removeEntry_noop (fs gs : List (String × Json))
    (h1 : objGet fs "mcpServers" = some (Json.obj gs))
    (h2 : objGet gs "figma-console" = none) :
    removeEntry fs = fs := by
  simp only [removeEntry, h1]
  rw [eraseKey_id gs "figma-console" h2]
  exact setKey_id fs _ _ h1

/-- Witness for C7 at a concrete config with a foreign server entry. -/
theorem removeEntry_noop_witness :
    removeEntry [("theme", Json.str "dark"),
                 ("mcpServers", Json.obj [("other-server", Json.num 1)])]
      = [("theme", Json.str "dark"),
         ("mcpServers", Json.obj [("other-server", Json.num 1)])] :=
  removeEntry_noop _ [("other-server", Json.num 1)] rfl rfl

/-- Claim C8: reading a config never throws — a missing file and malformed
JSON both yield the empty mapping — and scanning a file-backed target with
no config file reports not configured with no token, raising nothing. -/
theorem readJsonConfig_never_throws :
    readJsonConfig FileRead.missing = Json.obj []
    ∧ readJsonConfig FileRead.malformed = Json.obj []
    ∧ scanFileClient FileRead.missing = { configured := false, token := none }
    ∧ scanFileClient FileRead.malformed = { configured := false, token := none } :=
  ⟨rfl, rfl, rfl, rfl⟩

/-- Counterexample for C3: a local install method with an empty path is not
recovered by detection — the args[0] truthiness check fails on the empty
string, so detection returns npx, which differs from the stored method. -/
theorem detect_roundtrip_counterexample :
    detectInstallMethodFromJson
        (mergeServerConfig (Json.obj []) "figd_c3" (InstallMethod.localPath (Json.str "")))
      = InstallMethod.npx
    ∧ InstallMethod.npx ≠ InstallMethod.localPath (Json.str "") := by
  refine ⟨rfl, ?_⟩
  intro h
  cases h

/-- Claim C3 as amended: detection after merge reconstructs the stored
install method for the on-demand variant always, and for the local variant
whenever the stored path is truthy (in particular for every non-empty
string path); the local path is recovered from args[0]. -/
theorem detect_roundtrip (x : Json) (t : String) :
    detectInstallMethodFromJson (mergeServerConfig x t InstallMethod.npx)
      = InstallMethod.npx
    ∧ ∀ v : Json, truthy v = true →
        detectInstallMethodFromJson (mergeServerConfig x t (InstallMethod.localPath v))
          = InstallMethod.localPath v := by
  have hfc : ∀ m : InstallMethod,
      ((jsGet (mergeServerConfig x t m) "mcpServers").bind fun w =>
          jsGet w "figma-console")
        = some (serverEntry t m) := by
    intro m
    simp [mergeServerConfig, jsGet, objGet_setKey_self]
  constructor
  · simp only [detectInstallMethodFromJson]
    rw [hfc InstallMethod.npx]
    rfl
  · intro v hv
    simp only [detectInstallMethodFromJson]
    rw [hfc (InstallMethod.localPath v)]
    simp [serverEntry, getServerCommand, jsGet, objGet, isStrEq, jsIndex0, hv]

/-- Witness for C3 at a concrete non-empty local path. -/
theorem detect_roundtrip_witness :
    detectInstallMethodFromJson
        (mergeServerConfig (Json.obj []) "figd_w3"
          (InstallMethod.localPath (Json.str "/home/user/figma-console-mcp/dist/local.js")))
      = InstallMethod.localPath (Json.str "/home/user/figma-console-mcp/dist/local.js") :=
  (detect_roundtrip (Json.obj []) "figd_w3").2
    (Json.str "/home/user/figma-console-mcp/dist/local.js") rfl

/-- Away from the one throwing value, the fallible embedding of install
method detection returns exactly what the non-null detection logic
computes. -/
theorem detectInstallMethodFromJsonE_ok (j : Json) (h : j ≠ Json.null) :
    detectInstallMethodFromJsonE j = Except.ok (detectInstallMethodFromJson j) := by
  cases j with
  | null => exact absurd rfl h
  | bool b => rfl
  | num n => rfl
  | str s => rfl
  | arr xs => rfl
  | obj fs => rfl

/-- Helper: case analysis of the non-null detection logic — it returns npx
unless the reserved entry has command node and a truthy args[0], in which
case it returns that value as the local path. -/
theorem detectInstallMethodFromJson_cases (j : Json) :
    detectInstallMethodFromJson j = InstallMethod.npx
    ∨ ∃ v,
        detectInstallMethodFromJson j = InstallMethod.localPath v
        ∧ truthy v = true
        ∧ isStrEq (((jsGet j "mcpServers").bind fun w =>
              jsGet w "figma-console").bind fun w => jsGet w "command") "node" = true
        ∧ (((jsGet j "mcpServers").bind fun w =>
              jsGet w "figma-console").bind fun w => jsGet w "args").bind jsIndex0
            = some v := by
  by_cases hc : isStrEq ((((jsGet j "mcpServers").bind fun w =>
      jsGet w "figma-console")).bind fun w => jsGet w "command") "node" = true
  · rcases ha : ((((jsGet j "mcpServers").bind fun w =>
        jsGet w "figma-console")).bind fun w => jsGet w "args").bind jsIndex0 with _ | v
    · left
      simp [detectInstallMethodFromJson, hc, ha]
    · by_cases hv : truthy v = true
      · right
        exact ⟨v, by simp [detectInstallMethodFromJson, hc, ha, hv], hv, hc, rfl⟩
      · left
        simp [detectInstallMethodFromJson, hc, ha, hv]
  · left
    simp [detectInstallMethodFromJson, hc]

/-- Counterexample for C10: inference is not total — a config file whose
content parses to JSON null makes the plain config.mcpServers access throw
a TypeError — and a reserved entry with command node and a truthy
non-string args[0] makes detection return a local method whose path is not
a string at all, refuting both the totality clause and the clause that a
local method is returned only when args[0] is a non-empty string. -/
theorem detect_throw_and_nonstring_counterexample :
    detectInstallMethodFromConfig (FileRead.content Json.null)
      = Except.error "TypeError: Cannot read properties of null"
    ∧ detectInstallMethodFromJsonE
        (Json.obj [("mcpServers", Json.obj [("figma-console",
            Json.obj [("command", Json.str "node"),
                      ("args", Json.arr [Json.num 7])])])])
      = Except.ok (InstallMethod.localPath (Json.num 7))
    ∧ Json.isString (Json.num 7) = false :=
  ⟨rfl, rfl, rfl⟩

/-- Claim C10 as amended: install-method inference catches no errors of its
own — a config file parsing to JSON null throws a TypeError out of it —
and on every other input it returns without throwing: a missing or
malformed file yields npx, and every non-null parsed value yields either
npx or a local method whose path is exactly the truthy args[0] of a
reserved entry whose command is node.  (The path is a non-empty string
whenever it is a string, but a truthy non-string value is also accepted,
as the counterexample shows.) -/
theorem detect_partial_characterization :
    detectInstallMethodFromConfig FileRead.missing = Except.ok InstallMethod.npx
    ∧ detectInstallMethodFromConfig FileRead.malformed = Except.ok InstallMethod.npx
    ∧ detectInstallMethodFromJsonE Json.null
        = Except.error "TypeError: Cannot read properties of null"
    ∧ ∀ j : Json, j ≠ Json.null →
        detectInstallMethodFromJsonE j = Except.ok InstallMethod.npx
        ∨ ∃ v,
            detectInstallMethodFromJsonE j = Except.ok (InstallMethod.localPath v)
            ∧ truthy v = true
            ∧ isStrEq (((jsGet j "mcpServers").bind fun w =>
                  jsGet w "figma-console").bind fun w => jsGet w "command") "node" = true
            ∧ (((jsGet j "mcpServers").bind fun w =>
                  jsGet w "figma-console").bind fun w => jsGet w "args").bind jsIndex0
                = some v := by
  refine ⟨rfl, rfl, rfl, ?_⟩
  intro j h
  rcases detectInstallMethodFromJson_cases j with hnpx | ⟨v, hloc, hv, hc, ha⟩
  · left
    rw [detectInstallMethodFromJsonE_ok j h, hnpx]
  · right
    exact ⟨v, by rw [detectInstallMethodFromJsonE_ok j h, hloc], hv, hc, ha⟩

/-- Witness for C10 at the empty object config, which is not null and is
classified as npx. -/
theorem detect_partial_characterization_witness :
    detectInstallMethodFromJsonE (Json.obj []) = Except.ok InstallMethod.npx
    ∨ ∃ v,
        detectInstallMethodFromJsonE (Json.obj []) = Except.ok (InstallMethod.localPath v)
        ∧ truthy v = true
        ∧ isStrEq (((jsGet (Json.obj []) "mcpServers").bind fun w =>
              jsGet w "figma-console").bind fun w => jsGet w "command") "node" = true
        ∧ (((jsGet (Json.obj []) "mcpServers").bind fun w =>
              jsGet w "figma-console").bind fun w => jsGet w "args").bind jsIndex0
            = some v :=
  detect_partial_characterization.2.2.2 (Json.obj []) (fun h => Json.noConfusion h)

/-- Claim C1: every batch loop processes its targets pointwise — splitting
the batch around any one target shows that the outcome recorded for each
target depends only on that target and that processing continues past a
failure — and in the concrete three-target batches below, where only the
second target rejects the write, the first and third succeed, the second
alone is reported failed, and only the first and third configs change. -/
theorem batch_failure_isolation :
    (∀ (op : FileTarget → Except String FileTarget)
        (pre post : List FileTarget) (t : FileTarget),
        processBatch op (pre ++ t :: post)
          = processBatch op pre
              ++ (match op t with
                  | Except.ok t2 => (t2, TargetStatus.success)
                  | Except.error m => (t, TargetStatus.failed m)) :: processBatch op post)
    ∧ (addIntegrations
          [⟨FileRead.missing, true⟩, ⟨FileRead.missing, false⟩, ⟨FileRead.missing, true⟩]
          "figd_batch" InstallMethod.npx).map Prod.snd
        = [TargetStatus.success, TargetStatus.failed "permission denied",
           TargetStatus.success]
    ∧ (updateToken
          [⟨FileRead.missing, true⟩, ⟨FileRead.missing, false⟩, ⟨FileRead.missing, true⟩]
          "figd_upd").map Prod.snd
        = [TargetStatus.success, TargetStatus.failed "permission denied",
           TargetStatus.success]
    ∧ (removeIntegrations
          [⟨FileRead.missing, true⟩, ⟨FileRead.missing, false⟩,
           ⟨FileRead.missing, true⟩]).map Prod.snd
        = [TargetStatus.success, TargetStatus.failed "permission denied",
           TargetStatus.success]
    ∧ (addIntegrations
          [⟨FileRead.missing, true⟩, ⟨FileRead.missing, false⟩, ⟨FileRead.missing, true⟩]
          "figd_batch" InstallMethod.npx).map (fun r => r.1.content)
        = [FileRead.content (mergeServerConfig (Json.obj []) "figd_batch" InstallMethod.npx),
           FileRead.missing,
           FileRead.content (mergeServerConfig (Json.obj []) "figd_batch" InstallMethod.npx)] := by
  refine ⟨?_, rfl, rfl, rfl, rfl⟩
  intro op pre post t
  simp [processBatch]

/-- Helper: once every event source is torn down, no further event changes
the state. -/
theorem runWait_settled (s : WaitState) (h1 : s.timerOn = false)
    (h2 : s.dataListenerOn = false) (h3 : s.serverOpen = false) :
    ∀ es, runWait s es = s := by
  intro es
  induction es with
  | nil => rfl
  | cons e es ih =>
      have hstep : stepWait s e = s := by
        cases e <;> simp [stepWait, h1, h2, h3]
      show runWait (stepWait s e) es = s
      rw [hstep]
      exact ih

/-- Claim C5: in the three-way race, the first event to fire settles the
wait — the remaining events are no-ops, the outcome is settled exactly once
to the value of the winning event, and the listener is closed on every
exit path; in particular a cancellation delivered first yields Cancelled
exactly once with the listener closed, and upgrade requests arriving
afterwards resolve nothing. -/
theorem bridge_race_single_resolution (e : BridgeEvent) (es : List BridgeEvent) :
    runWait initWait (e :: es) = stepWait initWait e
    ∧ (runWait initWait (e :: es)).outcome = some (eventOutcome e)
    ∧ (runWait initWait (e :: es)).resolved = true
    ∧ (runWait initWait (e :: es)).serverOpen = false
    ∧ runWait initWait (BridgeEvent.escapePressed :: es)
        = { resolved := true, timerOn := false, dataListenerOn := false,
            serverOpen := false, outcome := some BridgeResult.cancelled } := by
  have key : ∀ e2 : BridgeEvent, runWait initWait (e2 :: es) = stepWait initWait e2 := by
    intro e2
    show runWait (stepWait initWait e2) es = stepWait initWait e2
    cases e2 <;> exact runWait_settled _ rfl rfl rfl es
  refine ⟨key e, ?_, ?_, ?_, ?_⟩
  · rw [key e]; cases e <;> rfl
  · rw [key e]; cases e <;> rfl
  · rw [key e]; cases e <;> rfl
  · rw [key BridgeEvent.escapePressed]; rfl

/-- Helper: on a strictly sorted list, find? returns the first match — the
found element satisfies the predicate and every smaller listed element
fails it. -/
theorem find_first_of_pairwise :
    ∀ (l : List Nat) (pred : Nat → Bool), l.Pairwise (· < ·) →
      ∀ p, l.find? pred = some p →
        pred p = true ∧ ∀ q ∈ l, q < p → pred q = false := by
  intro l
  induction l with
  | nil =>
      intro pred _ p h
      cases h
  | cons a l ih =>
      intro pred hs p h
      rcases List.pairwise_cons.mp hs with ⟨ha, hl⟩
      by_cases hpa : pred a = true
      · rw [List.find?_cons_of_pos _ hpa] at h
        injection h with hp
        subst hp
        refine ⟨hpa, ?_⟩
        intro q hq hlt
        rcases List.mem_cons.mp hq with rfl | hq2
        · exact absurd hlt (lt_irrefl _)
        · exact absurd hlt (not_lt_of_gt (ha q hq2))
      · have hpa2 : pred a = false := by
          simpa using hpa
        rw [List.find?_cons_of_neg _ hpa] at h
        rcases ih pred hl p h with ⟨hp, hall⟩
        refine ⟨hp, ?_⟩
        intro q hq hlt
        rcases List.mem_cons.mp hq with rfl | hq2
        · exact hpa2
        · exact hall q hq2 hlt

/-- Claim C6: the candidate ports are the ten sequential values just above
the debug port, tried strictly in ascending order (the bound port is the
least available candidate); when every candidate is occupied the verifier
reports connected immediately, binding no listener. -/
theorem bridge_port_fallback :
    BRIDGE_PORTS = (List.range 10).map (fun i => 9223 + i)
    ∧ BRIDGE_PORTS.Pairwise (· < ·)
    ∧ (∀ occupied : Nat → Bool,
        (∀ p ∈ BRIDGE_PORTS, occupied p = true) →
          startBridgeWait occupied = BridgePhase.assumeConnected
          ∧ ∀ events, waitForBridgeOutcome occupied events = some BridgeResult.connected)
    ∧ (∀ (occupied : Nat → Bool) (p : Nat), bindFirstPort occupied = some p →
          occupied p = false ∧ ∀ q ∈ BRIDGE_PORTS, q < p → occupied q = true) := by
  refine ⟨by decide, by decide, ?_, ?_⟩
  · intro occupied hall
    have hnone : bindFirstPort occupied = none := by
      rw [bindFirstPort, List.find?_eq_none]
      intro p hp
      simp [tryListen, hall p hp]
    constructor
    · simp [startBridgeWait, hnone]
    · intro events
      simp [waitForBridgeOutcome, startBridgeWait, hnone]
  · intro occupied p h
    rcases find_first_of_pairwise BRIDGE_PORTS (fun q => tryListen occupied q)
        (by decide) p h with ⟨h1, h2⟩
    constructor
    · simpa [tryListen] using h1
    · intro q hq hlt
      simpa [tryListen] using h2 q hq hlt

/-- Witness for C6: with every port occupied the verifier assumes
connected; with only the first port occupied the loop binds the second
port, the least available one. -/
theorem bridge_port_fallback_witness :
    (startBridgeWait (fun _ => true) = BridgePhase.assumeConnected
      ∧ ∀ events, waitForBridgeOutcome (fun _ => true) events = some BridgeResult.connected)
    ∧ ((fun q => q == 9223) 9224 = false
      ∧ ∀ q ∈ BRIDGE_PORTS, q < 9224 → (fun q => q == 9223) q = true) :=
  ⟨bridge_port_fallback.2.2.1 (fun _ => true) (by decide),
   bridge_port_fallback.2.2.2 (fun q => q == 9223) 9224 (by decide)⟩

set_option maxRecDepth 40000 in
/-- Claim C9 at the failing input: on the fixed example nonce of the
WebSocket protocol, the code computes the accept token from its magic
constant 258EAFA5-E914-47DA-95CA-5AB5E34B13E5, yielding a value different
from the published protocol reference value for that nonce (computed with
the RFC 6455 GUID 258EAFA5-E914-47DA-95CA-C5AB0DC85B11): the magic constant
in the code is wrong. -/
theorem ws_accept_mismatch :
    computeAccept "dGhlIHNhbXBsZSBub25jZQ==" = "dxBSPk62+Dss7jrffkSJhSzPSEY="
    ∧ protocolAccept "dGhlIHNhbXBsZSBub25jZQ==" = "s3pPLMBiTxaQ9kYGzzhZRbK+xOo="
    ∧ ("dxBSPk62+Dss7jrffkSJhSzPSEY=" : String) ≠ "s3pPLMBiTxaQ9kYGzzhZRbK+xOo="
    ∧ upgradeResponse "dGhlIHNhbXBsZSBub25jZQ=="
        = "HTTP/1.1 101 Switching Protocols\r\nUpgrade: websocket\r\nConnection: Upgrade\r\nSec-WebSocket-Accept: dxBSPk62+Dss7jrffkSJhSzPSEY=\r\n\r\n" :=
  ⟨rfl, rfl, by decide, rfl⟩

end FigmaCli
